import Mathlib

/-!
Verification of the ETOS suite runner orchestration core, as a shallow
embedding of the Python sources under
projects/etos_suite_runner/src/etos_suite_runner/. Pure computations of the
code (verdict aggregation, status derivation, the environment discovery loop,
release accounting) are translated into executable Lean functions; polling
loops become structural recursion over the list of bus snapshots one poll
tick observes, so that running out of snapshots models the loop deadline
expiring. Definitions suffixed Spec restate a sentence of the natural
language specification and are compared with the embedded code.
-/

/-! ## Sub suite outcomes and TestSuite.results (lib/suite.py) -/

/-- Outcome dictionary of a test suite finished event: the data the code
reads from data.testSuiteOutcome, each key possibly missing. -/
structure SubSuiteOutcome where
  verdict : Option String
  description : Option String
deriving DecidableEq

/-- State of one SubSuite object as TestSuite.results reads it: the failed
flag, whether a test suite finished event was cached, and that event's
outcome dictionary. -/
structure SubSuiteState where
  failed : Bool
  finished : Bool
  testSuiteOutcome : SubSuiteOutcome
deriving DecidableEq

/-- SubSuite.outcome: the outcome from the finished event when the sub suite
has finished, else the empty dictionary (both keys missing). -/
def SubSuiteState.outcome (s : SubSuiteState) : SubSuiteOutcome :=
  if s.finished then s.testSuiteOutcome else ⟨none, none⟩

/-- State of one TestSuite object as TestSuite.results reads it. The
testrun id and the test suite started event id are the strings interpolated
into the descriptions. -/
structure TestSuiteState where
  empty : Bool
  started : Bool
  testrunId : String
  testSuiteStartedId : String
  subSuites : List SubSuiteState

/-- Python falsiness of an optional string: None and the empty string. -/
def strFalsy : Option String → Bool
  | none => true
  | some s => s.isEmpty

/-- The for-loop of TestSuite.results over sub suites: the verdict flips to
FAILED once some outcome verdict is not PASSED, and the description is
overwritten with each sub suite's outcome description in turn. -/
def resultsLoop : List SubSuiteState → String → Option String → String × Option String
  | [], verdict, description => (verdict, description)
  | s :: rest, verdict, _ =>
    resultsLoop rest
      (if s.outcome.verdict ≠ some "PASSED" then "FAILED" else verdict)
      s.outcome.description

/-- TestSuite.all_finished: whether every sub suite has finished. -/
def TestSuite.all_finished (t : TestSuiteState) : Bool :=
  t.subSuites.all (·.finished)

/-- TestSuite.results: verdict, conclusion and description for this
execution, translated branch for branch from lib/suite.py. -/
def TestSuite.results (t : TestSuiteState) : String × String × String :=
  let failed := t.subSuites.filter (·.failed)
  if t.empty then
    ("INCONCLUSIVE", "FAILED",
      "No tests in test suite " ++ t.testrunId ++ ", aborting test run")
  else if !t.started then
    ("INCONCLUSIVE", "FAILED",
      "No sub suites started at all for " ++ t.testSuiteStartedId ++ ".")
  else if !failed.isEmpty then
    ("INCONCLUSIVE", "FAILED", toString failed.length ++ " sub suites failed to start")
  else if !(TestSuite.all_finished t) then
    ("INCONCLUSIVE", "FAILED", "Did not receive test results from sub suites.")
  else
    let vd := resultsLoop t.subSuites "INCONCLUSIVE" none
    let vd := if vd.1 = "INCONCLUSIVE" then ("PASSED", some "All tests passed.") else vd
    let description :=
      if strFalsy vd.2 then "No description received from ESR or ETR." else vd.2.getD ""
    (vd.1, "SUCCESSFUL", description)

/-- Outcome description of the last sub suite in the list, when it has one. -/
def lastOutcomeDescription (subs : List SubSuiteState) : Option String :=
  subs.getLast?.bind (fun s => s.outcome.description)

/-- First row of a precedence table whose condition holds, else the default. -/
def firstMatch : List (Bool × (String × String × String)) → (String × String × String) →
    (String × String × String)
  | [], dflt => dflt
  | (b, v) :: rest, dflt => if b then v else firstMatch rest dflt

/-- Modelled from the amended specification sentence for TestSuite.results:
first-match precedence over the five conditions, with the descriptions the
code actually produces, and with the not-PASSED row carrying the last sub
suite's outcome description (falling back when it is missing or empty). -/
def resultsSpec (t : TestSuiteState) : String × String × String :=
  let failedCount := (t.subSuites.filter (·.failed)).length
  let failDescription :=
    match lastOutcomeDescription t.subSuites with
    | some d => if d.isEmpty then "No description received from ESR or ETR." else d
    | none => "No description received from ESR or ETR."
  firstMatch
    [(t.empty,
       ("INCONCLUSIVE", "FAILED",
         "No tests in test suite " ++ t.testrunId ++ ", aborting test run")),
     (!t.started,
       ("INCONCLUSIVE", "FAILED",
         "No sub suites started at all for " ++ t.testSuiteStartedId ++ ".")),
     (failedCount != 0,
       ("INCONCLUSIVE", "FAILED", toString failedCount ++ " sub suites failed to start")),
     (!t.subSuites.all (·.finished),
       ("INCONCLUSIVE", "FAILED", "Did not receive test results from sub suites.")),
     (t.subSuites.any (fun s => s.outcome.verdict ≠ some "PASSED"),
       ("FAILED", "SUCCESSFUL", failDescription))]
    ("PASSED", "SUCCESSFUL", "All tests passed.")

/-! ## Testrun level aggregation (main in __main__.py) -/

/-- Result dictionary of one main suite as the termination log writes it. -/
structure SuiteResult where
  conclusion : String
  verdict : String
  description : String
deriving DecidableEq

/-- The for-loop of main over suite results: the first FAILED result breaks;
an INCONCLUSIVE result overwrites the accumulator and scanning continues. -/
def scanResults (acc : Option SuiteResult) : List SuiteResult → Option SuiteResult
  | [] => acc
  | r :: rs =>
    if r.verdict = "FAILED" then some r
    else if r.verdict = "INCONCLUSIVE" then scanResults (some r) rs
    else scanResults acc rs

/-- Result written by main when the results list is empty. -/
def noResultsFromESR : SuiteResult :=
  { conclusion := "Inconclusive", verdict := "Inconclusive",
    description := "Got no results from ESR" }

/-- Main's pick among the suite results: the scan loop's pick, the default
when the list is empty, the first result when the scan picked none. -/
def pickResult : List SuiteResult → SuiteResult
  | [] => noResultsFromESR
  | r :: rs => (scanResults none (r :: rs)).getD r

/-- Title-case normalization from main: first character upper, rest lower.
The code would raise on an empty string; it is only applied to the non-empty
verdict and conclusion values. -/
def titleCase (s : String) : String :=
  match s.data with
  | [] => ""
  | c :: cs => ⟨c.toUpper :: cs.map Char.toLower⟩

/-- Normalization main applies to the picked result before writing it. -/
def normalizeResult (r : SuiteResult) : SuiteResult :=
  { r with conclusion := titleCase r.conclusion, verdict := titleCase r.verdict }

/-- Termination log record main writes: on a normal return of esr.run the
normalized pick over the results list; on any exception the fixed failure
record with the traceback text as description. -/
def mainTerminationLog : Except String (List SuiteResult) → SuiteResult
  | Except.ok results => normalizeResult (pickResult results)
  | Except.error traceback =>
    { conclusion := "Failed", verdict := "Inconclusive", description := traceback }

/-- Modelled from the amended specification sentence for the aggregation:
the first FAILED result, otherwise the last INCONCLUSIVE result, otherwise
the first result, otherwise the no-results record. -/
def pickResultSpec (rs : List SuiteResult) : SuiteResult :=
  match rs.find? (fun r => r.verdict = "FAILED") with
  | some r => r
  | none =>
    match (rs.filter (fun r => r.verdict = "INCONCLUSIVE")).getLast? with
    | some r => r
    | none =>
      match rs.head? with
      | some r => r
      | none => noResultsFromESR

/-- Modelled from the amended specification sentence for main's termination
log as a whole, both exit paths included. -/
def mainTerminationLogSpec : Except String (List SuiteResult) → SuiteResult
  | Except.ok results => normalizeResult (pickResultSpec results)
  | Except.error traceback =>
    { conclusion := "Failed", verdict := "Inconclusive", description := traceback }

/-! ## The shared results list (esr.py, lib/runner.py) -/

/-- The slice of the shared etos.config dictionary the termination log
depends on: the list stored under the results key. -/
structure EtosConfig where
  results : List SuiteResult

/-- Configuration as main initializes it: the results list is empty. -/
def mainInitConfig : EtosConfig := ⟨[]⟩

/-- SuiteRunner.run for one test suite: computes the suite's results and
passes them to finish, which sends the test suite finished event; nothing is
stored into the shared configuration. -/
def SuiteRunner.run (cfg : EtosConfig) (t : TestSuiteState) :
    EtosConfig × (String × String × String) :=
  (cfg, TestSuite.results t)

/-- SuiteRunner.start_suites_and_wait: runs every test suite. -/
def SuiteRunner.start_suites_and_wait (cfg : EtosConfig) (suites : List TestSuiteState) :
    EtosConfig :=
  suites.foldl (fun c t => (SuiteRunner.run c t).1) cfg

/-- ESR.run's effect on the shared configuration: it drives the suite runner
and never touches the results list. -/
def ESR.runConfig (cfg : EtosConfig) (suites : List TestSuiteState) : EtosConfig :=
  SuiteRunner.start_suites_and_wait cfg suites

/-- Termination log record written by main when esr.run returned without
raising, for a run over the given suites. -/
def mainTerminationLogAfterRun (suites : List TestSuiteState) : SuiteResult :=
  mainTerminationLog (Except.ok (ESR.runConfig mainInitConfig suites).results)

/-! ## EnvironmentStatus and the environment requester (lib/esr_parameters.py, esr.py) -/

/-- Shared environment provider status dictionary. -/
structure EnvironmentStatus where
  status : String
  error : Option String
deriving DecidableEq

/-- Status as ESRParameters constructs it. -/
def startingEnvironmentStatus : EnvironmentStatus := ⟨"NOT_STARTED", none⟩

/-- ESRParameters.set_status: overwrites both keys under the mutex. A write
is a pair of the new status string and the new error value. -/
def ESRParameters.set_status (st : EnvironmentStatus) (w : String × Option String) :
    EnvironmentStatus :=
  { st with status := w.1, error := w.2 }

/-- ESRParameters.get_status: returns a copy of the dictionary under the
mutex, a snapshot equal to the current state. -/
def ESRParameters.get_status (st : EnvironmentStatus) : EnvironmentStatus := st

/-- One status condition of an EnvironmentRequest resource. -/
structure Condition where
  type : String
  status : String
  reason : String
  message : Option String
deriving DecidableEq

/-- One EnvironmentRequest record as the watch loop reads it: its list of
status conditions. -/
structure EnvironmentRequestItem where
  conditions : List Condition
deriving DecidableEq

/-- Python str.lower as the code applies it to condition fields, written
over the character list so it evaluates structurally. -/
def pyLower (s : String) : String :=
  ⟨s.data.map Char.toLower⟩

/-- Conditions of type Ready across all requests, in traversal order. -/
def readyConditions (reqs : List EnvironmentRequestItem) : List Condition :=
  reqs.flatMap (fun r => r.conditions.filter (fun c => pyLower c.type == "ready"))

/-- Ready conditions with status false and reason Failed. -/
def failedConditions (reqs : List EnvironmentRequestItem) : List Condition :=
  (readyConditions reqs).filter
    (fun c => pyLower c.status == "false" && pyLower c.reason == "failed")

/-- Ready conditions with status false and reason Done. -/
def doneConditions (reqs : List EnvironmentRequestItem) : List Condition :=
  (readyConditions reqs).filter
    (fun c => pyLower c.status == "false" && pyLower c.reason == "done")

/-- ESR.__environment_request_status: the watch mode poll loop. The list of
snapshots holds what each five second poll reads from the cluster; the
result is the set_status write the loop performs, none when the loop exits
(its deadline expiring modelled as the snapshots running out) without
performing any write. -/
def ESR.environment_request_status :
    List (List EnvironmentRequestItem) → Option (String × Option String)
  | [] => none
  | reqs :: rest =>
    let found := !(readyConditions reqs).isEmpty
    let failed := failedConditions reqs
    let success := doneConditions reqs
    if found && !failed.isEmpty then
      some ("FAILURE", failed.getLast?.bind (fun c => c.message))
    else if found && success.length == reqs.length then
      some ("SUCCESS", some "Successfully created an environment for test")
    else ESR.environment_request_status rest

/-- Outcome of the direct mode provider invocation in
ESR.__request_environment: the provider call raised, or returned a result
dictionary with an optional error value. -/
inductive ProviderRun
  | raised (message : String)
  | returned (error : Option String)

/-- ESR.__request_environment: the set_status writes the direct mode
requester performs, in order. -/
def ESR.request_environment : ProviderRun → List (String × Option String)
  | ProviderRun.raised _ => [("FAILURE", some "Failed to run environment provider")]
  | ProviderRun.returned (some err) => [("FAILURE", some err)]
  | ProviderRun.returned none => [("SUCCESS", none)]

/-- The one requester run ESR._request_environment starts in the background:
watch mode when IDENTIFIER is set, direct mode otherwise. -/
inductive RequesterMode
  | watch (snaps : List (List EnvironmentRequestItem))
  | direct (pr : ProviderRun)

/-- Writes to the environment status a whole run performs: the requester
thread runs exactly one of the two modes, once. -/
def requesterWrites : RequesterMode → List (String × Option String)
  | RequesterMode.watch snaps => (ESR.environment_request_status snaps).toList
  | RequesterMode.direct pr => ESR.request_environment pr

/-- Successive values of the environment status over a run, starting from
the constructed value and applying each write in order. -/
def statusTrace (m : RequesterMode) : List EnvironmentStatus :=
  (requesterWrites m).scanl ESRParameters.set_status startingEnvironmentStatus

/-! ## Environment discovery loop (TestSuite.sub_suite_environments) -/

/-- What one poll tick of the discovery loop observes on the bus: whether an
activity triggered event linked to the main suite id exists, the environment
status of that moment (its FAILURE flag and error), the activity finished
event's conclusion and description when one exists, and the ids of the
environment defined events linked to the activity. -/
structure DiscoverySnapshot where
  activityTriggered : Bool
  statusIsFailure : Bool
  statusError : Option String
  activityFinished : Option (String × String)
  environmentsDefined : List String

/-- Errors the discovery loop raises: EnvironmentProviderException with a
message, or TimeoutError. -/
inductive DiscoveryError
  | environmentProvider (message : Option String)
  | timeout
deriving DecidableEq

/-- The inner for-loop over environment defined events: each event id not
yet recorded is appended (and the event yielded); already recorded ids are
skipped. -/
def collectNew (seen : List String) : List String → List String
  | [] => seen
  | e :: es =>
    if seen.contains e then collectNew seen es else collectNew (seen ++ [e]) es

/-- TestSuite.sub_suite_environments: the discovery loop over the successive
poll snapshots, carrying the ids recorded (and yielded) so far. Running out
of snapshots models the WAIT_FOR_ENVIRONMENT_TIMEOUT deadline expiring, on
which the loop raises TimeoutError; on success the loop returns, the yielded
ids being the accumulated list. -/
def TestSuite.sub_suite_environments :
    List DiscoverySnapshot → List String → Except DiscoveryError (List String)
  | [], _ => Except.error DiscoveryError.timeout
  | snap :: rest, seen =>
    if !snap.activityTriggered then
      if snap.statusIsFailure then
        Except.error (DiscoveryError.environmentProvider snap.statusError)
      else TestSuite.sub_suite_environments rest seen
    else
      let seen1 := collectNew seen snap.environmentsDefined
      match snap.activityFinished with
      | some fin =>
        if fin.1 ≠ "SUCCESSFUL" then
          Except.error (DiscoveryError.environmentProvider (some fin.2))
        else if seen1.length > 0 then Except.ok seen1
        else TestSuite.sub_suite_environments rest seen1
      | none => TestSuite.sub_suite_environments rest seen1

/-! ## Release accounting (SubSuite.release, TestSuite.release_all, SubSuite._start) -/

/-- The release relevant state of one SubSuite: its released and failed
flags together with a count of release calls made for its environment. -/
structure SubSuiteRel where
  released : Bool
  failed : Bool
  releaseCalls : Nat
deriving DecidableEq

/-- A sub suite as constructed: unreleased, not failed, no calls made. -/
def newSubSuite : SubSuiteRel := ⟨false, false, 0⟩

/-- SubSuite.release: one call to the release backend. On success the
released flag is set; on failure the method returns early leaving the flag
untouched. -/
def SubSuite.release (s : SubSuiteRel) (ok : Bool) : SubSuiteRel :=
  { s with releaseCalls := s.releaseCalls + 1,
           released := if ok then true else s.released }

/-- Exit paths of the worker SubSuite._start: the executor call raised
TestStartException, or the polling loop ended (finished or timed out). -/
inductive WorkerExit
  | testStartFail
  | pollLoopEnd
deriving DecidableEq

/-- SubSuite._start for one sub suite. On TestStartException the failed flag
is set, the exception recorded, and the exception re-raised: the release
call in the polling loop's finally block is never reached. On the polling
path the finally block releases once, with the given backend outcome. -/
def SubSuite.start (s : SubSuiteRel) (exitPath : WorkerExit) (releaseOk : Bool) :
    SubSuiteRel :=
  match exitPath with
  | WorkerExit.testStartFail => { s with failed := true }
  | WorkerExit.pollLoopEnd => SubSuite.release s releaseOk

/-- TestSuite.release_all for one sub suite: release it again only when its
released flag is still unset. -/
def TestSuite.release_all (s : SubSuiteRel) (ok : Bool) : SubSuiteRel :=
  if !s.released then SubSuite.release s ok else s

/-- Full lifecycle of one sub suite's environment: the worker runs to its
exit path, then the suite's exit path runs release_all over it. -/
def subSuiteLifecycle (exitPath : WorkerExit) (ok1 ok2 : Bool) : SubSuiteRel :=
  TestSuite.release_all (SubSuite.start newSubSuite exitPath ok1) ok2

/-- Successive values of the released flag over the lifecycle. -/
def releasedTrace (exitPath : WorkerExit) (ok1 ok2 : Bool) : List Bool :=
  [newSubSuite.released,
   (SubSuite.start newSubSuite exitPath ok1).released,
   (subSuiteLifecycle exitPath ok1 ok2).released]

/-! ## Event ordering of a main suite run (TestSuite._start, SuiteRunner.run) -/

/-- Events of one main suite run, as they go out to the bus or happen to the
worker threads. -/
inductive RunEvent
  | suiteStarted
  | workerStart (n : Nat)
  | workerJoin (n : Nat)
  | suiteFinished
deriving DecidableEq

/-- Shape of one main suite run: whether sending the test suite started
event succeeded, whether the suite had zero recipes, and how many sub suite
workers were launched before the discovery loop ended or raised. -/
structure SuiteScenario where
  sendStartedOk : Bool
  empty : Bool
  workers : Nat

/-- TestSuite._start as a trace: the test suite started event is sent first;
an empty suite returns at once; otherwise each worker thread is started as
its environment arrives, and the finally block joins every started worker,
also when the discovery loop raised. When sending the started event raises,
nothing else happens. -/
def TestSuite.startTrace (s : SuiteScenario) : List RunEvent :=
  if !s.sendStartedOk then []
  else if s.empty then [RunEvent.suiteStarted]
  else
    RunEvent.suiteStarted ::
      ((List.range s.workers).map RunEvent.workerStart ++
        (List.range s.workers).map RunEvent.workerJoin)

/-- SuiteRunner.run as a trace: after TestSuite.start returns or raises, the
finally block computes the results and sends the test suite finished event.
When the started event was never sent, results raises on the missing started
event before finish is reached, so no finished event goes out. -/
def SuiteRunner.runTrace (s : SuiteScenario) : List RunEvent :=
  if s.sendStartedOk then TestSuite.startTrace s ++ [RunEvent.suiteFinished]
  else TestSuite.startTrace s

/-! ## Theorems -/

/-- Helper: a string append with a non-empty left part is non-empty. -/
theorem append_ne_empty_left (a b : String) (h : a ≠ "") : a ++ b ≠ "" := by
  intro hab
  apply h
  have hd := congrArg String.data hab
  rw [String.data_append] at hd
  have ha : a.data = [] := (List.append_eq_nil.mp hd).1
  cases a
  simp_all

/-- Helper: a string append with a non-empty right part is non-empty. -/
theorem append_ne_empty_right (a b : String) (h : b ≠ "") : a ++ b ≠ "" := by
  intro hab
  apply h
  have hd := congrArg String.data hab
  rw [String.data_append] at hd
  have hb : b.data = [] := (List.append_eq_nil.mp hd).2
  cases b
  simp_all

/-- Helper: a string whose isEmpty test is false is not the empty string. -/
theorem ne_empty_of_isEmpty_false (s : String) (h : s.isEmpty = false) : s ≠ "" := by
  intro hs
  rw [hs] at h
  exact absurd h (by decide)

/-- Helper: the getLast? of a cons in terms of the tail's getLast?. -/
theorem getLast?_cons_eq {α : Type} (a : α) (l : List α) :
    (a :: l).getLast? =
      match l.getLast? with
      | some x => some x
      | none => some a := by
  induction l generalizing a with
  | nil => rfl
  | cons b l' ih =>
    rw [List.getLast?_cons_cons, ih b]
    cases l'.getLast? <;> rfl

/-- Helper: closed form of the results for-loop: the verdict is FAILED
exactly when some sub suite outcome verdict is not PASSED, and the
description is the last sub suite's outcome description. -/
theorem resultsLoop_eq (subs : List SubSuiteState) (v : String) (d : Option String) :
    resultsLoop subs v d =
      ((if subs.any (fun s => s.outcome.verdict ≠ some "PASSED") then "FAILED" else v),
        match subs.getLast? with
        | none => d
        | some s => s.outcome.description) := by
  induction subs generalizing v d with
  | nil => simp [resultsLoop]
  | cons s rest ih =>
    rw [resultsLoop, ih, getLast?_cons_eq]
    by_cases h : s.outcome.verdict = some "PASSED" <;>
      by_cases h2 : rest.any (fun s => s.outcome.verdict ≠ some "PASSED") = true <;>
        cases hl : rest.getLast? <;>
          simp [h, h2, hl, List.any_cons]

/-- Helper: the full characterization of TestSuite.results as the precedence
table resultsSpec. -/
theorem results_characterization (t : TestSuiteState) :
    TestSuite.results t = resultsSpec t := by
  simp only [TestSuite.results, resultsSpec, firstMatch]
  by_cases he : t.empty = true
  · simp [he]
  · simp only [he, if_false, Bool.false_eq_true]
    by_cases hs : t.started = true
    · simp only [hs, Bool.not_true, Bool.false_eq_true, if_false]
      cases hfl : t.subSuites.filter (·.failed) with
      | cons a l => simp [hfl]
      | nil =>
        simp only [hfl, List.isEmpty_nil, Bool.not_true, Bool.false_eq_true, if_false,
          List.length_nil, bne_self_eq_false]
        by_cases hfin : t.subSuites.all (·.finished) = true
        · simp only [TestSuite.all_finished, hfin, Bool.not_true, Bool.false_eq_true,
            if_false, if_true]
          rw [resultsLoop_eq]
          by_cases hany : t.subSuites.any (fun s => s.outcome.verdict ≠ some "PASSED") = true
          · simp only [hany, if_true]
            have hne : ¬ ("FAILED" : String) = "INCONCLUSIVE" := by decide
            simp only [hne, if_false]
            cases hl : t.subSuites.getLast? with
            | none => simp [lastOutcomeDescription, hl, strFalsy]
            | some s =>
              cases hd : s.outcome.description with
              | none => simp [lastOutcomeDescription, hl, hd, strFalsy]
              | some str =>
                simp only [lastOutcomeDescription, hl, hd, Option.bind_some, strFalsy]
                by_cases hemp : str.isEmpty = true <;> simp [hemp, hd]
          · simp only [hany, Bool.false_eq_true, if_false, if_true]
            have : strFalsy (some "All tests passed.") = false := by decide
            simp [this]
        · simp [TestSuite.all_finished, hfin]
    · simp [hs]

/-- C2. TestSuite.results computes the verdict triple by first-match
precedence over empty, not started, failed-to-start, not all finished, some
outcome not PASSED, all passed, with the code's actual description strings:
the empty description is "No tests in test suite ..., aborting test run" and
the not-PASSED row carries the last sub suite's outcome description with a
fallback when that is missing or empty. -/
theorem results_precedence_amended (t : TestSuiteState) :
    TestSuite.results t = resultsSpec t :=
  results_characterization t

/-- C2 counterexample. For an empty suite the code's description is
"No tests in test suite testrun, aborting test run", not the claimed
"No tests in suite testrun, aborting". -/
theorem results_empty_description_cex :
    TestSuite.results
      { empty := true, started := false, testrunId := "testrun",
        testSuiteStartedId := "main", subSuites := [] } ≠
      ("INCONCLUSIVE", "FAILED", "No tests in suite testrun, aborting") := by
  decide

/-- Helper: a property holding for every row value and the default holds for
the first match. -/
theorem firstMatch_prop (P : String × String × String → Prop)
    (rows : List (Bool × (String × String × String))) (dflt : String × String × String)
    (hrows : ∀ r ∈ rows, P r.2) (hdflt : P dflt) : P (firstMatch rows dflt) := by
  induction rows with
  | nil => exact hdflt
  | cons r rest ih =>
    rw [firstMatch]
    by_cases hb : r.1 = true
    · obtain ⟨b, v⟩ := r
      simp only at hb
      simp only [hb, if_true]
      exact hrows ⟨b, v⟩ (List.mem_cons_self _ _)
    · obtain ⟨b, v⟩ := r
      simp only at hb
      simp only [hb, if_false, Bool.false_eq_true]
      exact ih (fun x hx => hrows x (List.mem_cons_of_mem _ hx))

/-- C10. The triple returned by TestSuite.results has conclusion FAILED
exactly when the verdict is INCONCLUSIVE and SUCCESSFUL in every other case
(a conclusion of INCONCLUSIVE is never returned), and its description is
never the empty string. -/
theorem results_verdict_conclusion_invariant (t : TestSuiteState) :
    ((TestSuite.results t).2.1 = "FAILED" ↔ (TestSuite.results t).1 = "INCONCLUSIVE")
    ∧ ((TestSuite.results t).2.1 = "FAILED" ∨ (TestSuite.results t).2.1 = "SUCCESSFUL")
    ∧ (TestSuite.results t).2.2 ≠ "" := by
  rw [results_characterization]
  simp only [resultsSpec]
  refine firstMatch_prop
    (fun v => (v.2.1 = "FAILED" ↔ v.1 = "INCONCLUSIVE")
      ∧ (v.2.1 = "FAILED" ∨ v.2.1 = "SUCCESSFUL") ∧ v.2.2 ≠ "") _ _ ?_ ?_
  · intro r hr
    simp only [List.mem_cons, List.not_mem_nil, or_false] at hr
    rcases hr with rfl | rfl | rfl | rfl | rfl <;> dsimp only
    · exact ⟨by decide, Or.inl rfl,
        append_ne_empty_left _ _ (append_ne_empty_left _ _ (by decide))⟩
    · exact ⟨by decide, Or.inl rfl,
        append_ne_empty_left _ _ (append_ne_empty_left _ _ (by decide))⟩
    · exact ⟨by decide, Or.inl rfl, append_ne_empty_right _ _ (by decide)⟩
    · exact ⟨by decide, Or.inl rfl, by decide⟩
    · refine ⟨by decide, Or.inr rfl, ?_⟩
      cases hl : lastOutcomeDescription t.subSuites with
      | none => decide
      | some d =>
        by_cases hemp : d.isEmpty = true
        · simp only [hemp, if_true]
          decide
        · simp only [hemp, Bool.false_eq_true, if_false]
          exact ne_empty_of_isEmpty_false d (by simpa using hemp)
  · exact ⟨by decide, Or.inr rfl, by decide⟩

/-- Helper: closed form of main's scan loop: the first FAILED result, else
the last INCONCLUSIVE one, else the accumulator. -/
theorem scanResults_eq (rs : List SuiteResult) (acc : Option SuiteResult) :
    scanResults acc rs =
      match rs.find? (fun r => r.verdict = "FAILED") with
      | some r => some r
      | none =>
        match (rs.filter (fun r => r.verdict = "INCONCLUSIVE")).getLast? with
        | some r => some r
        | none => acc := by
  induction rs generalizing acc with
  | nil => simp [scanResults]
  | cons r rs ih =>
    rw [scanResults]
    by_cases hf : r.verdict = "FAILED"
    · simp [hf, List.find?_cons]
    · by_cases hi : r.verdict = "INCONCLUSIVE"
      · rw [if_neg hf, if_pos hi, ih]
        simp only [List.find?_cons, List.filter_cons, hf, hi, decide_True, decide_False,
          Bool.false_eq_true, if_true, if_false, getLast?_cons_eq]
        cases hfind : rs.find? (fun x => x.verdict = "FAILED") <;>
          cases hlast : (rs.filter (fun x => x.verdict = "INCONCLUSIVE")).getLast? <;>
            simp [hfind, hlast]
      · rw [if_neg hf, if_neg hi, ih]
        simp [List.find?_cons, List.filter_cons, hf, hi]

/-- Helper: main's pick equals the amended specification pick. -/
theorem pickResult_eq (rs : List SuiteResult) : pickResult rs = pickResultSpec rs := by
  cases rs with
  | nil => rfl
  | cons r rs =>
    simp only [pickResult, pickResultSpec, scanResults_eq]
    cases hfind : (r :: rs).find? (fun x => x.verdict = "FAILED") <;>
      cases hlast : ((r :: rs).filter (fun x => x.verdict = "INCONCLUSIVE")).getLast? <;>
        simp [hfind, hlast]

/-- C3 (amended). The termination log record is, on a normal return, the
Title-cased pick taking the first FAILED result, otherwise the last
INCONCLUSIVE result, otherwise the first result, otherwise the fixed
no-results record; on an exception the fixed failure record. A full record
with all three keys is produced on both exit paths. -/
theorem main_aggregation_amended (input : Except String (List SuiteResult)) :
    mainTerminationLog input = mainTerminationLogSpec input := by
  cases input with
  | error tb => rfl
  | ok rs => simp [mainTerminationLog, mainTerminationLogSpec, pickResult_eq]

/-- C3 counterexample. With two INCONCLUSIVE results main picks the second
one, not the first as the claim states. -/
theorem main_picks_last_inconclusive_cex :
    mainTerminationLog
      (Except.ok
        [{ conclusion := "FAILED", verdict := "INCONCLUSIVE", description := "first result" },
         { conclusion := "FAILED", verdict := "INCONCLUSIVE", description := "second result" }]) ≠
      { conclusion := "Failed", verdict := "Inconclusive", description := "first result" } := by
  decide

/-- Helper: ESR.run never changes the shared configuration, in particular
the results list. -/
theorem esr_run_results_unchanged (cfg : EtosConfig) (suites : List TestSuiteState) :
    ESR.runConfig cfg suites = cfg := by
  induction suites generalizing cfg with
  | nil => rfl
  | cons t ts ih => exact ih cfg

/-- C4. No component appends to the shared results list main reads: after
esr.run returns without raising the list is still the empty list main
initialized, so main writes exactly the Inconclusive no-results record to
the termination log, whatever the suites did. -/
theorem main_writes_no_results_triple (suites : List TestSuiteState) :
    (ESR.runConfig mainInitConfig suites).results = []
    ∧ mainTerminationLogAfterRun suites =
      { conclusion := "Inconclusive", verdict := "Inconclusive",
        description := "Got no results from ESR" } := by
  constructor
  · rw [esr_run_results_unchanged]
    rfl
  · simp only [mainTerminationLogAfterRun, esr_run_results_unchanged]
    decide

/-- C5. Over any reachable run the requester performs at most one status
write, so a status of FAILURE is never followed by SUCCESS along the status
trace, and get_status returns a snapshot equal to the shared state (writes
and reads being serialized by the one mutex, modelled as atomic steps). -/
theorem environment_status_monotone (m : RequesterMode) :
    (requesterWrites m).length ≤ 1
    ∧ List.Pairwise (fun a b => a.status = "FAILURE" → b.status ≠ "SUCCESS") (statusTrace m)
    ∧ (∀ st, ESRParameters.get_status st = st) := by
  have hlen : (requesterWrites m).length ≤ 1 := by
    cases m with
    | watch snaps =>
      simp only [requesterWrites]
      cases ESR.environment_request_status snaps <;> simp
    | direct pr =>
      cases pr with
      | raised msg => simp [requesterWrites, ESR.request_environment]
      | returned e => cases e <;> simp [requesterWrites, ESR.request_environment]
  refine ⟨hlen, ?_, fun st => rfl⟩
  have hshape : requesterWrites m = [] ∨ ∃ w, requesterWrites m = [w] := by
    cases hw : requesterWrites m with
    | nil => exact Or.inl rfl
    | cons a l =>
      cases l with
      | nil => exact Or.inr ⟨a, rfl⟩
      | cons b l2 => rw [hw] at hlen; simp at hlen
  rcases hshape with hw | ⟨w, hw⟩
  · simp [statusTrace, hw, List.scanl_nil]
  · simp only [statusTrace, hw, List.scanl_cons, List.scanl_nil, List.singleton_append]
    refine List.Pairwise.cons ?_ (List.pairwise_singleton _ _)
    intro b _ hfail
    exact absurd hfail (by decide)

/-- C6 (amended). The watch mode loop: a poll whose requests carry a Ready
condition with status false and reason Failed sets FAILURE with the last
such condition's message; a poll with some Ready condition where the number
of Ready conditions with status false and reason Done equals the number of
requests sets SUCCESS; otherwise the loop polls on; and when the timeout
elapses the loop exits without performing any status write. -/
theorem environment_request_status_amended (reqs : List EnvironmentRequestItem)
    (rest : List (List EnvironmentRequestItem)) :
    ESR.environment_request_status [] = none
    ∧ (failedConditions reqs ≠ [] →
        ESR.environment_request_status (reqs :: rest) =
          some ("FAILURE", (failedConditions reqs).getLast?.bind (fun c => c.message)))
    ∧ (failedConditions reqs = [] → (readyConditions reqs).isEmpty = false →
        (doneConditions reqs).length = reqs.length →
        ESR.environment_request_status (reqs :: rest) =
          some ("SUCCESS", some "Successfully created an environment for test"))
    ∧ (failedConditions reqs = [] →
        ((readyConditions reqs).isEmpty = true ∨ (doneConditions reqs).length ≠ reqs.length) →
        ESR.environment_request_status (reqs :: rest) =
          ESR.environment_request_status rest) := by
  refine ⟨rfl, ?_, ?_, ?_⟩
  · intro hf
    cases hfc : failedConditions reqs with
    | nil => exact absurd hfc hf
    | cons a l =>
      have hready : readyConditions reqs ≠ [] := by
        intro hr
        simp only [failedConditions, hr, List.filter_nil] at hfc
        exact List.noConfusion hfc
      cases hr : readyConditions reqs with
      | nil => exact absurd hr hready
      | cons b k => simp [ESR.environment_request_status, hr, hfc]
  · intro hf hready hlen
    simp [ESR.environment_request_status, hf, hready, hlen]
  · intro hf hcase
    rcases hcase with hre | hlen
    · simp [ESR.environment_request_status, hf, hre]
    · have hne : ((doneConditions reqs).length == reqs.length) = false :=
        beq_eq_false_iff_ne.mpr hlen
      simp [ESR.environment_request_status, hf, hne]

/-- C6 counterexample. A run whose polls only ever see a pending Ready
condition runs out its deadline with no write at all: the loop performs no
set_status call, in particular the status is not set to FAILURE as the claim
requires. -/
theorem environment_request_timeout_cex :
    ESR.environment_request_status
      [[⟨[⟨"Ready", "True", "Pending", none⟩]⟩],
       [⟨[⟨"Ready", "True", "Pending", none⟩]⟩]] = none := by
  decide

/-- Helper: the dedup loop over environment defined event ids keeps the
recorded list free of duplicates. -/
theorem collectNew_nodup (es : List String) (seen : List String) (h : seen.Nodup) :
    (collectNew seen es).Nodup := by
  induction es generalizing seen with
  | nil => simpa [collectNew] using h
  | cons e es ih =>
    rw [collectNew]
    by_cases hc : seen.contains e = true
    · simp only [hc, if_true]
      exact ih seen h
    · simp only [hc, Bool.false_eq_true, if_false]
      refine ih _ ?_
      rw [List.nodup_append]
      refine ⟨h, List.nodup_singleton e, ?_⟩
      intro x hx hx2
      simp only [List.mem_singleton] at hx2
      subst hx2
      exact hc (by simpa using hx)

/-- Helper: whenever the discovery loop returns environments, the returned
event ids hold no duplicate: every environment was yielded at most once. -/
theorem sub_suite_environments_nodup (snaps : List DiscoverySnapshot) :
    ∀ seen out, seen.Nodup →
      TestSuite.sub_suite_environments snaps seen = Except.ok out → out.Nodup := by
  induction snaps with
  | nil =>
    intro seen out h heq
    simp [TestSuite.sub_suite_environments] at heq
  | cons snap rest ih =>
    intro seen out h heq
    rw [TestSuite.sub_suite_environments] at heq
    by_cases ht : snap.activityTriggered = true
    · simp only [ht, Bool.not_true, Bool.false_eq_true, if_false] at heq
      cases hfin : snap.activityFinished with
      | none =>
        simp only [hfin] at heq
        exact ih _ out (collectNew_nodup _ _ h) heq
      | some fin =>
        simp only [hfin] at heq
        by_cases hc : fin.1 = "SUCCESSFUL"
        · simp only [hc, ne_eq, not_true_eq_false, Bool.false_eq_true, if_false] at heq
          by_cases hl : (collectNew seen snap.environmentsDefined).length > 0
          · simp only [hl, if_true, Except.ok.injEq] at heq
            subst heq
            exact collectNew_nodup _ _ h
          · simp only [hl, if_false] at heq
            exact ih _ out (collectNew_nodup _ _ h) heq
        · simp only [hc, ne_eq, not_false_eq_true, if_true] at heq
          exact Except.noConfusion heq
    · simp only [ht] at heq
      by_cases hsf : snap.statusIsFailure = true
      · simp only [hsf, if_true, Bool.not_false, if_true] at heq
        exact Except.noConfusion heq
      · simp only [hsf] at heq
        exact ih seen out h heq

/-- C7. The discovery loop raises EnvironmentProviderException with the
status error whenever no activity triggered event exists and the status is
FAILURE; raises it with the outcome description whenever an activity
finished event has a conclusion other than SUCCESSFUL; returns all yielded
environments (deduplicated by event id, each yielded at most once) once the
activity finished SUCCESSFUL and at least one environment was yielded; and
raises TimeoutError when the deadline elapses. -/
theorem sub_suite_environments_spec (snap : DiscoverySnapshot)
    (rest : List DiscoverySnapshot) :
    (∀ seen, TestSuite.sub_suite_environments [] seen =
      Except.error DiscoveryError.timeout)
    ∧ (∀ seen, snap.activityTriggered = false → snap.statusIsFailure = true →
        TestSuite.sub_suite_environments (snap :: rest) seen =
          Except.error (DiscoveryError.environmentProvider snap.statusError))
    ∧ (∀ concl descr seen, snap.activityTriggered = true →
        snap.activityFinished = some (concl, descr) → concl ≠ "SUCCESSFUL" →
        TestSuite.sub_suite_environments (snap :: rest) seen =
          Except.error (DiscoveryError.environmentProvider (some descr)))
    ∧ (∀ descr seen, snap.activityTriggered = true →
        snap.activityFinished = some ("SUCCESSFUL", descr) →
        collectNew seen snap.environmentsDefined ≠ [] →
        TestSuite.sub_suite_environments (snap :: rest) seen =
          Except.ok (collectNew seen snap.environmentsDefined))
    ∧ (∀ seen out, seen.Nodup →
        TestSuite.sub_suite_environments (snap :: rest) seen = Except.ok out →
          out.Nodup) := by
  refine ⟨fun seen => rfl, ?_, ?_, ?_, ?_⟩
  · intro seen ht hs
    simp [TestSuite.sub_suite_environments, ht, hs]
  · intro concl descr seen ht hfin hc
    simp [TestSuite.sub_suite_environments, ht, hfin, hc]
  · intro descr seen ht hfin hne
    have hl : (collectNew seen snap.environmentsDefined).length > 0 := by
      cases h : collectNew seen snap.environmentsDefined with
      | nil => exact absurd h hne
      | cons a l => simp
    simp [TestSuite.sub_suite_environments, ht, hfin, hl]
  · exact fun seen out h heq => sub_suite_environments_nodup (snap :: rest) seen out h heq

/-- C9. In every main suite run the test suite started event goes out before
any worker starts (it heads the trace and occurs once), the test suite
finished event goes out after every worker has joined (it ends the trace and
occurs once), and a finished event is emitted exactly when the started event
was emitted. -/
theorem test_suite_event_order (s : SuiteScenario) :
    (RunEvent.suiteStarted ∈ SuiteRunner.runTrace s ↔
      RunEvent.suiteFinished ∈ SuiteRunner.runTrace s)
    ∧ ((SuiteRunner.runTrace s).head? = some RunEvent.suiteStarted ∨
        SuiteRunner.runTrace s = [])
    ∧ ((SuiteRunner.runTrace s).getLast? = some RunEvent.suiteFinished ∨
        SuiteRunner.runTrace s = [])
    ∧ (SuiteRunner.runTrace s).count RunEvent.suiteStarted ≤ 1
    ∧ (SuiteRunner.runTrace s).count RunEvent.suiteFinished ≤ 1 := by
  by_cases hs : s.sendStartedOk = true
  · have htrace : SuiteRunner.runTrace s =
        TestSuite.startTrace s ++ [RunEvent.suiteFinished] := by
      simp [SuiteRunner.runTrace, hs]
    have hhead : (TestSuite.startTrace s).head? = some RunEvent.suiteStarted := by
      by_cases he : s.empty = true <;> simp [TestSuite.startTrace, hs, he]
    have hstmem : RunEvent.suiteStarted ∈ TestSuite.startTrace s := by
      by_cases he : s.empty = true <;> simp [TestSuite.startTrace, hs, he]
    have hstcount : (TestSuite.startTrace s).count RunEvent.suiteStarted ≤ 1 := by
      by_cases he : s.empty = true <;>
        simp [TestSuite.startTrace, hs, he, List.count_cons, List.count_append,
          List.count_eq_zero]
    have hfincount : (TestSuite.startTrace s).count RunEvent.suiteFinished = 0 := by
      by_cases he : s.empty = true <;>
        simp [TestSuite.startTrace, hs, he, List.count_cons, List.count_append,
          List.count_eq_zero]
    refine ⟨?_, ?_, ?_, ?_, ?_⟩
    · rw [htrace]
      constructor <;> intro _ <;> simp [hstmem]
    · left
      rw [htrace]
      cases hst : TestSuite.startTrace s with
      | nil => rw [hst] at hhead; exact Option.noConfusion hhead
      | cons a l =>
        rw [hst] at hhead
        rw [List.head?_cons] at hhead
        rw [List.cons_append, List.head?_cons]
        exact hhead
    · left
      rw [htrace]
      exact List.getLast?_concat _
    · rw [htrace, List.count_append]
      have : ([RunEvent.suiteFinished] : List RunEvent).count RunEvent.suiteStarted = 0 := by
        decide
      omega
    · rw [htrace, List.count_append, hfincount]
      have : ([RunEvent.suiteFinished] : List RunEvent).count RunEvent.suiteFinished = 1 := by
        decide
      omega
  · have htrace : SuiteRunner.runTrace s = [] := by
      simp [SuiteRunner.runTrace, TestSuite.startTrace, hs]
    rw [htrace]
    refine ⟨by simp, Or.inr rfl, Or.inr rfl, by simp, by simp⟩

/-- C1 (amended). Every environment bound to a sub suite gets at least one
release call on every exit path; the released flag only ever flips from
false to true, at most once; a second release call happens exactly when the
worker's own release attempt failed (release_all retries any sub suite whose
released flag is still false), and the worker's TestStartException path
leaves the single call to release_all. -/
theorem sub_suite_release_accounting (exitPath : WorkerExit) (ok1 ok2 : Bool) :
    1 ≤ (subSuiteLifecycle exitPath ok1 ok2).releaseCalls
    ∧ (subSuiteLifecycle exitPath ok1 ok2).releaseCalls ≤ 2
    ∧ (exitPath = WorkerExit.testStartFail →
        (subSuiteLifecycle exitPath ok1 ok2).releaseCalls = 1)
    ∧ (ok1 = true → (subSuiteLifecycle exitPath ok1 ok2).releaseCalls = 1)
    ∧ (exitPath = WorkerExit.pollLoopEnd → ok1 = false →
        (subSuiteLifecycle exitPath ok1 ok2).releaseCalls = 2)
    ∧ List.Pairwise (fun a b => a = true → b = true)
        (releasedTrace exitPath ok1 ok2) := by
  cases exitPath <;> cases ok1 <;> cases ok2 <;> decide

/-- C1 counterexample. When the worker's release attempt fails (the backend
reports no success, so released stays false), release_all calls release a
second time: the claimed exactly-one release call is violated. -/
theorem sub_suite_release_double_call_cex :
    (subSuiteLifecycle WorkerExit.pollLoopEnd false true).releaseCalls ≠ 1 := by
  decide

/-- C8 (amended). On TestStartException the worker sets the failed flag,
records the exception and re-raises without reaching its own release call;
the sub suite's released flag stays false, so the environment is released
afterwards by the suite's release_all pass, which makes exactly one call. -/
theorem test_start_error_amended (ok1 ok2 : Bool) :
    (SubSuite.start newSubSuite WorkerExit.testStartFail ok1).failed = true
    ∧ (SubSuite.start newSubSuite WorkerExit.testStartFail ok1).releaseCalls = 0
    ∧ (SubSuite.start newSubSuite WorkerExit.testStartFail ok1).released = false
    ∧ (TestSuite.release_all
        (SubSuite.start newSubSuite WorkerExit.testStartFail ok1) ok2).releaseCalls = 1
    ∧ (ok2 = true →
        (TestSuite.release_all
          (SubSuite.start newSubSuite WorkerExit.testStartFail ok1) ok2).released = true) := by
  cases ok1 <;> cases ok2 <;> decide

/-- C8 counterexample. On the TestStartException path the worker itself
makes no release call at all, contradicting the claim that the worker then
runs the release path before returning. -/
theorem test_start_error_no_worker_release_cex :
    (SubSuite.start newSubSuite WorkerExit.testStartFail true).releaseCalls = 0 := by
  decide
